import Mathlib

/-!
Verification of the dataset combination core of the deep-object-reid
repository (`torchreid/data/datasets/dataset.py`): identity/camera
indexing (`parse_data`, `get_data_counts`), dataset combination
(`Dataset.__add__`, `Dataset.combine_all`, `Dataset._relabel`,
`Dataset._get_obj_ids`), video-tracklet index sampling
(`VideoDataset.__getitem__`) and mode dispatch (`Dataset.__init__`),
plus the tuple records built by `Classification.load_annotation`.

Records in the source are either plain tuples
`(media, obj_id, cam_id, extra...)` or dicts with keys `img_path`,
`obj_id`, `cam_id`, `dataset_id`, .... We embed both shapes.  Lists of
records processed by `_relabel` are assumed homogeneous in shape (the
source dispatches on `data[0]` and crashes on mixed lists; the spec
flags homogeneity as a standing assumption).  Python `set` iteration
order is unspecified; we model the enumeration used to build
`id2label_map` as first-occurrence order, a deterministic refinement
the spec explicitly allows.  The float arithmetic of
`np.arange(0, n, n / seq_len)` in the `evenly` sampling branch is
exact on the integer values involved (the truncated `n` is a multiple
of `seq_len`), so it is modelled with natural-number division.
-/

/-- Media field of a record: a single image path or a tracklet
(ordered sequence of frame paths). -/
inductive Media where
  | img : String → Media
  | clip : List String → Media
deriving DecidableEq, Repr

/-- A dynamically-typed Python scalar appearing in the tail of a
tuple-shaped record (e.g. `dataset_id`, `''`, `-1`). -/
inductive PyVal where
  | i : Int → PyVal
  | s : String → PyVal
deriving DecidableEq, Repr

/-- Dict-shaped record: the fields the combination code reads or
writes. -/
structure DictRecord where
  img_path : Media
  obj_id : Int
  cam_id : Int
  dataset_id : Nat
deriving DecidableEq, Repr

/-- A record of a split: dict-shaped, or tuple-shaped
`(media, obj_id, cam_id, rest...)`. -/
inductive Record where
  | dict : DictRecord → Record
  | tup : Media → Int → Int → List PyVal → Record
deriving DecidableEq, Repr

namespace Record

/-- `record['obj_id'] if isinstance(record, dict) else record[1]`. -/
def objId : Record → Int
  | .dict d => d.obj_id
  | .tup _ o _ _ => o

/-- `record['cam_id'] if isinstance(record, dict) else record[2]`. -/
def camId : Record → Int
  | .dict d => d.cam_id
  | .tup _ _ c _ => c

/-- `record['dataset_id'] if isinstance(record, dict) else 0`: tuple
records are always keyed under dataset id 0. -/
def datasetId : Record → Nat
  | .dict d => d.dataset_id
  | .tup _ _ _ _ => 0

/-- `record['img_path'] if isinstance(record, dict) else record[0]`. -/
def media : Record → Media
  | .dict d => d.img_path
  | .tup m _ _ _ => m

/-- Whether the record is tuple-shaped. -/
def isTup : Record → Bool
  | .dict _ => false
  | .tup _ _ _ _ => true

end Record

/-! ## `Dataset.parse_data` and `Dataset.get_data_counts` -/

/-- Pointwise insertion into a `dataset_id`-keyed family of sets,
mirroring `pids[dataset_id].add(...)` on a `defaultdict(set)`. -/
def insertAt (f : Nat → Finset Int) (k : Nat) (v : Int) : Nat → Finset Int :=
  fun d => if d = k then insert v (f d) else f d

/-- The accumulation loop of `Dataset.parse_data` building the
per-`dataset_id` sets of object ids. -/
def parsePidSets (data : List Record) : Nat → Finset Int :=
  data.foldl (fun f r => insertAt f r.datasetId r.objId) (fun _ => ∅)

/-- The accumulation loop of `Dataset.parse_data` building the
per-`dataset_id` sets of camera ids. -/
def parseCamSets (data : List Record) : Nat → Finset Int :=
  data.foldl (fun f r => insertAt f r.datasetId r.camId) (fun _ => ∅)

/-- `parse_data(data)[0]` read with a 0 default for absent keys, as
`Dataset.__add__` does (`... if dataset_id in self.num_train_pids
else 0`).  A key is present in the Python dict exactly when some
record carries that `dataset_id`, in which case the value is the set
cardinality; absent keys have empty accumulated sets, so the 0 default
coincides with the cardinality. -/
def numPids (data : List Record) : Nat → Nat :=
  fun d => (parsePidSets data d).card

/-- `parse_data(data)[1]` read with a 0 default for absent keys. -/
def numCams (data : List Record) : Nat → Nat :=
  fun d => (parseCamSets data d).card

/-- The dict `num_pids` of `parse_data` with explicit key presence:
`none` models a missing key (unguarded subscription raises
`KeyError`). -/
def numPidsD (data : List Record) : Nat → Option Nat :=
  fun d => if parsePidSets data d = ∅ then none else some (parsePidSets data d).card

/-- `Dataset.get_data_counts`: per-`dataset_id`, per-`obj_id`
occurrence counts (`counts[dataset_id][obj_id] += 1` on nested
default-zero maps). -/
def getDataCounts (data : List Record) : Nat → Int → Nat :=
  data.foldl
    (fun f r => fun d o => if d = r.datasetId ∧ o = r.objId then f d o + 1 else f d o)
    (fun _ _ => 0)

/-- Specification-side set of distinct object ids of the records of a
split carrying a given `dataset_id`. -/
def pidsOf (data : List Record) (d : Nat) : Finset Int :=
  ((data.filter (fun r => decide (r.datasetId = d))).map Record.objId).toFinset

/-- Specification-side set of distinct camera ids per `dataset_id`. -/
def camsOf (data : List Record) (d : Nat) : Finset Int :=
  ((data.filter (fun r => decide (r.datasetId = d))).map Record.camId).toFinset

/-! ## `Dataset.__add__` (combine_datasets) -/

/-- The per-record update of `Dataset.__add__`: the identity id is
shifted by `a`'s identity count for the record's `dataset_id` (0 for
tuple records) and the camera id by `a`'s camera count. -/
def shiftRecord (np nc : Nat → Nat) : Record → Record
  | .dict d => .dict { d with obj_id := d.obj_id + np d.dataset_id,
                              cam_id := d.cam_id + nc d.dataset_id }
  | .tup m o c rest => .tup m (o + np 0) (c + nc 0) rest

/-- The loop of `Dataset.__add__` over `other.train`.  First component:
the records appended to `updated_train`.  Second component: the state
of `other.train`'s records after the loop — dict records are mutated
in place (`record['obj_id'] = new_obj_id; ...; updated_record =
record`), tuple records are rebuilt fresh and the originals are left
unchanged. -/
def addLoop (np nc : Nat → Nat) : List Record → List Record × List Record
  | [] => ([], [])
  | r :: rs =>
      let out := addLoop np nc rs
      match r with
      | .dict _ => (shiftRecord np nc r :: out.1, shiftRecord np nc r :: out.2)
      | .tup _ _ _ _ => (shiftRecord np nc r :: out.1, r :: out.2)

/-- `updated_train` of `Dataset.__add__`: a deep copy of `self.train`
followed by the shifted records of `other.train`. -/
def updatedTrain (atrain btrain : List Record) : List Record :=
  atrain ++ (addLoop (numPids atrain) (numCams atrain) btrain).1

/-- The state of `other.train` after `a + b` (dict records mutated in
place, tuple records untouched). -/
def bTrainAfter (atrain btrain : List Record) : List Record :=
  (addLoop (numPids atrain) (numCams atrain) btrain).2

/-- Whether `__add__` returns an `ImageDataset` or a `VideoDataset`. -/
inductive DatasetKind where
  | image : DatasetKind
  | video : DatasetKind
deriving DecidableEq, Repr

/-- `Dataset.__add__` end to end: builds `updated_train`, then reads
`updated_train[0]` to pick the output dataset class (`IndexError`,
modelled as `none`, when the combined train is empty); a string media
field means an image dataset. -/
def combineDatasets (atrain btrain : List Record) : Option (List Record × DatasetKind) :=
  match updatedTrain atrain btrain with
  | [] => none
  | r :: _ =>
      some (updatedTrain atrain btrain,
            match r.media with
            | .img _ => DatasetKind.image
            | .clip _ => DatasetKind.video)

/-! ## `Dataset._get_obj_ids`, `Dataset._relabel`, `Dataset.combine_all` -/

/-- Insertion into an insertion-ordered model of
`obj_ids[dataset_id].add(obj_id)`. -/
def addToIds (f : Nat → List Int) (k : Nat) (v : Int) : Nat → List Int :=
  fun d => if d = k then (if v ∈ f k then f k else f k ++ [v]) else f d

/-- `Dataset._get_obj_ids`: accumulates, per `dataset_id`, the set of
non-junk object ids of a split into `obj_ids` (here an
insertion-ordered list per key, modelling the Python set together
with a deterministic enumeration order). -/
def getObjIds (data : List Record) (junk : List Int) (init : Nat → List Int) :
    Nat → List Int :=
  match data with
  | [] => init
  | r :: rs =>
      if r.objId ∈ junk then getObjIds rs junk init
      else getObjIds rs junk (addToIds init r.datasetId r.objId)

/-- Index of an element in a list (the dense label `i` assigned by
`{obj_id: i for i, obj_id in enumerate(set(dataset_ids))}`). -/
def idIndex (l : List Int) (o : Int) : Nat :=
  match l with
  | [] => 0
  | x :: xs => if x = o then 0 else idIndex xs o + 1

/-- The record rebuild of `Dataset._relabel`: only `obj_id` changes
(`out_record = deepcopy(record); out_record['obj_id'] = obj_id` for
dicts, `record[:1] + (obj_id,) + record[2:]` for tuples). -/
def relabelRec (newId : Int) : Record → Record
  | .dict d => .dict { d with obj_id := newId }
  | .tup m _ c rest => .tup m newId c rest

/-- `Dataset._relabel`: drops junk identities, then maps each record's
identity to `id2label_map[dataset_id][obj_id] +
num_train_ids[dataset_id]`.  The second lookup is an unguarded dict
subscription: a `dataset_id` absent from `num_train_ids` raises
`KeyError`, modelled as `none`. -/
def relabel (data : List Record) (junk : List Int) (lab : Nat → Int → Nat)
    (ntp : Nat → Option Nat) : Option (List Record) :=
  match data with
  | [] => some []
  | r :: rs =>
      if r.objId ∈ junk then relabel rs junk lab ntp
      else
        match ntp r.datasetId with
        | none => none
        | some n =>
            match relabel rs junk lab ntp with
            | none => none
            | some rest => some (relabelRec ((lab r.datasetId r.objId : Int) + (n : Int)) r :: rest)

/-- The accumulated `new_obj_ids` of `combine_all`: the query pass
followed by the gallery pass. -/
def newObjIdsOf (junk : List Int) (query gallery : List Record) : Nat → List Int :=
  getObjIds gallery junk (getObjIds query junk (fun _ => []))

/-- The `id2label_map` of `combine_all`: per `dataset_id`, dense
zero-based labels enumerating the surviving query and gallery
identities. -/
def id2labelOf (junk : List Int) (query gallery : List Record) : Nat → Int → Nat :=
  fun did => idIndex (newObjIdsOf junk query gallery did)

/-- `Dataset.combine_all`: the new train split is a deep copy of the
original train followed by the relabeled query and the relabeled
gallery; `none` when a relabel lookup raises. -/
def combineAll (junk : List Int) (train query gallery : List Record) :
    Option (List Record) :=
  match relabel query junk (id2labelOf junk query gallery) (numPidsD train) with
  | none => none
  | some q =>
      match relabel gallery junk (id2labelOf junk query gallery) (numPidsD train) with
      | none => none
      | some g => some (train ++ q ++ g)

/-- The identity a surviving query/gallery record receives in
`combine_all`: its dense label offset by the count of existing train
identities for its `dataset_id`. -/
def combineNewId (junk : List Int) (query gallery train : List Record) (r : Record) : Int :=
  (id2labelOf junk query gallery r.datasetId r.objId : Int) + (numPids train r.datasetId : Int)

/-- Survival predicate of the junk filter. -/
def survives (junk : List Int) (r : Record) : Bool :=
  decide (r.objId ∉ junk)

/-! ## `VideoDataset.__getitem__` sampling and `Dataset.__init__` mode
dispatch -/

/-- `np.arange(0, stop, step)` on exactly-represented integer values:
`ceil(stop / step)` multiples of `step` starting at 0. -/
def arangeNat (stop step : Nat) : List Nat :=
  if step = 0 then []
  else (List.range ((stop + step - 1) / step)).map (fun k => k * step)

/-- The `evenly` branch of `VideoDataset.__getitem__`: for
`numImgs ≥ seqLen` truncate to the largest multiple of `seqLen` and
take evenly spaced indices, otherwise take all indices and pad with
the last one. -/
def evenlyIndices (numImgs seqLen : Nat) : List Nat :=
  if seqLen ≤ numImgs then
    arangeNat (numImgs - numImgs % seqLen) ((numImgs - numImgs % seqLen) / seqLen)
  else
    List.range numImgs ++ List.replicate (seqLen - numImgs) (numImgs - 1)

/-- Insertion into a sorted list, for modelling `np.sort`. -/
def insertSorted (x : Nat) : List Nat → List Nat
  | [] => [x]
  | y :: ys => if x ≤ y then x :: y :: ys else y :: insertSorted x ys

/-- `np.sort` on the drawn indices of the `random` policy. -/
def sortNat (l : List Nat) : List Nat :=
  l.foldr insertSorted []

/-- The sampling-policy dispatch of `VideoDataset.__getitem__`.  The
`random` draw of `np.random.choice` is supplied as an oracle `draw`;
the unrecognized-policy branch raises `ValueError` (the spec's
`InvalidConfiguration`). -/
def resolveIndices (method : String) (numImgs seqLen : Nat) (draw : List Nat) :
    Except String (List Nat) :=
  if method = "random" then Except.ok (sortNat draw)
  else if method = "evenly" then Except.ok (evenlyIndices numImgs seqLen)
  else if method = "all" then Except.ok (List.range numImgs)
  else Except.error ("Unknown sample method: " ++ method)

/-- The mode dispatch of `Dataset.__init__`: selects the split for
`self.data`, raising `ValueError` (the spec's `InvalidConfiguration`)
on an unrecognized mode. -/
def selectModeData (mode : String) (train query gallery : List Record) :
    Except String (List Record) :=
  if mode = "train" then Except.ok train
  else if mode = "query" then Except.ok query
  else if mode = "gallery" then Except.ok gallery
  else Except.error ("Invalid mode. Got " ++ mode ++ ", expected one of train, query, gallery")

/-! ## `Classification.load_annotation` record shape -/

/-- The record tuple `(full_image_path, label, 0, dataset_id, '', -1,
-1)` appended by `Classification.load_annotation`. -/
def classificationRecord (path : String) (label : Int) (datasetId : Int) : Record :=
  .tup (.img path) label 0 [.i datasetId, .s "", .i (-1), .i (-1)]

/-- The dataset id stored at tuple position 3 by the loaders. -/
def tupleStoredDatasetId : Record → Option Int
  | .tup _ _ _ (PyVal.i n :: _) => some n
  | _ => none

/-! ## Basic lemmas -/

lemma foldl_insertAt (g : Record → Int) (data : List Record)
    (init : Nat → Finset Int) (d : Nat) :
    data.foldl (fun f r => insertAt f r.datasetId (g r)) init d
      = init d ∪ ((data.filter (fun r => decide (r.datasetId = d))).map g).toFinset := by
  induction data generalizing init with
  | nil => simp
  | cons x xs ih =>
      simp only [List.foldl_cons, ih]
      by_cases h : x.datasetId = d
      · simp [insertAt, h, List.filter_cons, Finset.insert_union, Finset.union_insert]
      · simp [insertAt, h, Ne.symm h, List.filter_cons]

lemma parsePidSets_eq_pidsOf (data : List Record) (d : Nat) :
    parsePidSets data d = pidsOf data d := by
  simpa using foldl_insertAt Record.objId data (fun _ => ∅) d

lemma parseCamSets_eq_camsOf (data : List Record) (d : Nat) :
    parseCamSets data d = camsOf data d := by
  simpa using foldl_insertAt Record.camId data (fun _ => ∅) d

lemma shiftRecord_objId (np nc : Nat → Nat) (r : Record) :
    (shiftRecord np nc r).objId = r.objId + (np r.datasetId : Int) := by
  cases r <;> rfl

lemma shiftRecord_camId (np nc : Nat → Nat) (r : Record) :
    (shiftRecord np nc r).camId = r.camId + (nc r.datasetId : Int) := by
  cases r <;> rfl

lemma addLoop_fst (np nc : Nat → Nat) (b : List Record) :
    (addLoop np nc b).1 = b.map (shiftRecord np nc) := by
  induction b with
  | nil => rfl
  | cons r rs ih => cases r <;> simp [addLoop, ih]

lemma addLoop_snd (np nc : Nat → Nat) (b : List Record) :
    (addLoop np nc b).2
      = b.map (fun r => if r.isTup then r else shiftRecord np nc r) := by
  induction b with
  | nil => rfl
  | cons r rs ih => cases r <;> simp [addLoop, ih, Record.isTup]

/-- A default record used for positional indexing statements. -/
def defaultRec : Record := Record.tup (Media.img "") 0 0 []

lemma getD_append_len {α : Type} (l₁ l₂ : List α) (i : Nat) (d : α) :
    (l₁ ++ l₂).getD (l₁.length + i) d = l₂.getD i d := by
  induction l₁ with
  | nil => simp
  | cons x xs ih =>
      simp only [List.cons_append, List.length_cons]
      rw [show xs.length + 1 + i = (xs.length + i) + 1 by omega, List.getD_cons_succ]
      exact ih

lemma getD_map_lt {α β : Type} (f : α → β) (l : List α) (i : Nat)
    (h : i < l.length) (d : β) (d' : α) :
    (l.map f).getD i d = f (l.getD i d') := by
  induction l generalizing i with
  | nil => simp at h
  | cons x xs ih =>
      cases i with
      | zero => rfl
      | succ j =>
          simp only [List.map_cons, List.getD_cons_succ]
          exact ih j (by simpa using h)

lemma map_ite_tup_id (b : List Record) (f : Record → Record)
    (h : ∀ r ∈ b, r.isTup = true) :
    b.map (fun r => if r.isTup then r else f r) = b := by
  induction b with
  | nil => rfl
  | cons x xs ih =>
      simp only [List.map_cons, h x (by simp), if_true]
      rw [ih (fun r hr => h r (by simp [hr]))]

lemma pidsOf_eq_empty_of_absent (a : List Record) (d : Nat)
    (hd : ∀ r ∈ a, r.datasetId ≠ d) : pidsOf a d = ∅ := by
  have h0 : a.filter (fun r => decide (r.datasetId = d)) = [] := by
    rw [List.filter_eq_nil_iff]
    intro r hr
    simpa using hd r hr
  rw [pidsOf, h0]
  rfl

/-- C5: for every split, `parse_data` returns, per `dataset_id`,
exactly the cardinality of the set of distinct identity ids and the
cardinality of the set of distinct camera ids of the records with that
`dataset_id`; it is a pure function of the split (no side effects). -/
theorem parse_data_counts_card (data : List Record) (d : Nat) :
    numPids data d = (pidsOf data d).card ∧ numCams data d = (camsOf data d).card :=
  ⟨by rw [numPids, parsePidSets_eq_pidsOf], by rw [numCams, parseCamSets_eq_camsOf]⟩

/-- C2: `a + b` produces a train split made of `a`'s records followed
by `b`'s records with `a`'s per-`dataset_id` identity count added to
each identity id and `a`'s camera count added to each camera id; a
`dataset_id` with no identities in `a` contributes a zero offset. -/
theorem updatedTrain_offsets (a b : List Record) :
    (updatedTrain a b).take a.length = a
    ∧ (updatedTrain a b).length = a.length + b.length
    ∧ (∀ i, i < b.length →
        ((updatedTrain a b).getD (a.length + i) defaultRec).objId
          = (b.getD i defaultRec).objId + (numPids a ((b.getD i defaultRec).datasetId) : Int)
        ∧ ((updatedTrain a b).getD (a.length + i) defaultRec).camId
          = (b.getD i defaultRec).camId + (numCams a ((b.getD i defaultRec).datasetId) : Int))
    ∧ (∀ d, (∀ r ∈ a, r.datasetId ≠ d) → numPids a d = 0) := by
  refine ⟨by simp [updatedTrain, List.take_left], by simp [updatedTrain, addLoop_fst], ?_, ?_⟩
  · intro i hi
    rw [updatedTrain, addLoop_fst, getD_append_len,
        getD_map_lt _ _ _ (by simpa using hi) _ defaultRec,
        shiftRecord_objId, shiftRecord_camId]
    exact ⟨rfl, rfl⟩
  · intro d hd
    rw [numPids, parsePidSets_eq_pidsOf, pidsOf_eq_empty_of_absent a d hd]
    rfl

/-- Witness for C2 at the spec's example: `a.train` with 5 identities
for dataset id 0 and `b.train` containing identity 0 yields a combined
record with identity id 5. -/
theorem updatedTrain_offsets_witness :
    (0 : Nat) < ([Record.tup (Media.img "b") 0 0 []] : List Record).length
    ∧ ((updatedTrain
          [Record.tup (Media.img "a0") 0 0 [], Record.tup (Media.img "a1") 1 0 [],
           Record.tup (Media.img "a2") 2 0 [], Record.tup (Media.img "a3") 3 0 [],
           Record.tup (Media.img "a4") 4 0 []]
          [Record.tup (Media.img "b") 0 0 []]).getD
            ([Record.tup (Media.img "a0") 0 0 [], Record.tup (Media.img "a1") 1 0 [],
              Record.tup (Media.img "a2") 2 0 [], Record.tup (Media.img "a3") 3 0 [],
              Record.tup (Media.img "a4") 4 0 []] : List Record).length
            defaultRec).objId
        = ([Record.tup (Media.img "b") 0 0 []].getD 0 defaultRec).objId
            + (numPids
                [Record.tup (Media.img "a0") 0 0 [], Record.tup (Media.img "a1") 1 0 [],
                 Record.tup (Media.img "a2") 2 0 [], Record.tup (Media.img "a3") 3 0 [],
                 Record.tup (Media.img "a4") 4 0 []]
                (([Record.tup (Media.img "b") 0 0 []].getD 0 defaultRec).datasetId) : Int)
    ∧ ((updatedTrain
          [Record.tup (Media.img "a0") 0 0 [], Record.tup (Media.img "a1") 1 0 [],
           Record.tup (Media.img "a2") 2 0 [], Record.tup (Media.img "a3") 3 0 [],
           Record.tup (Media.img "a4") 4 0 []]
          [Record.tup (Media.img "b") 0 0 []]).getD 5 defaultRec).objId = 5 :=
  ⟨by decide,
   ((updatedTrain_offsets _ _).2.2.1 0 (by decide)).1,
   by decide⟩

/-- C4 counterexample: `a + b` mutates `b.train` in place when its
records are dict-shaped — the loop writes the offset identity and
camera ids back into the record and aliases it into the result, so
`b.train` is changed after the addition. -/
theorem addition_mutates_dict_records :
    bTrainAfter [Record.dict ⟨Media.img "a", 0, 0, 0⟩]
        [Record.dict ⟨Media.img "b", 0, 0, 0⟩]
      ≠ [Record.dict ⟨Media.img "b", 0, 0, 0⟩] := by decide

/-- C4 amended: `a + b` keeps `a.train` unchanged as a fresh prefix of
the result, leaves tuple-shaped records of `b.train` unchanged, but
mutates dict-shaped records of `b.train` in place with the
identity/camera offsets (aliasing them into the result). -/
theorem addition_frame_effects (a b : List Record) :
    (updatedTrain a b).take a.length = a
    ∧ bTrainAfter a b
        = b.map (fun r => if r.isTup then r else shiftRecord (numPids a) (numCams a) r)
    ∧ ((∀ r ∈ b, r.isTup = true) → bTrainAfter a b = b) := by
  refine ⟨by simp [updatedTrain, List.take_left], addLoop_snd _ _ _, ?_⟩
  intro h
  rw [bTrainAfter, addLoop_snd]
  exact map_ite_tup_id b _ h

/-- Witness for C4 at a concrete tuple-record input. -/
theorem addition_frame_effects_witness :
    (∀ r ∈ [Record.tup (Media.img "b") 3 1 []], r.isTup = true)
    ∧ bTrainAfter [Record.tup (Media.img "a") 0 0 []] [Record.tup (Media.img "b") 3 1 []]
        = [Record.tup (Media.img "b") 3 1 []] :=
  ⟨by decide,
   (addition_frame_effects [Record.tup (Media.img "a") 0 0 []]
      [Record.tup (Media.img "b") 3 1 []]).2.2 (by decide)⟩

/-- C8 counterexample: adding a dataset with an empty train split to a
dataset with a non-empty one does not fail — the first record of the
*combined* train (here `a.train[0]`) is inspected, so the addition
silently returns a dataset whose train is a copy of `a.train`. -/
theorem combineDatasets_empty_b_succeeds :
    combineDatasets [Record.tup (Media.img "a") 0 0 []] []
        = some ([Record.tup (Media.img "a") 0 0 []], DatasetKind.image)
    ∧ combineDatasets [Record.tup (Media.img "a") 0 0 []] [] ≠ none := by
  exact ⟨by decide, by decide⟩

/-- C8 amended: `a + b` fails (an index error on the first combined
record, not a raised configuration error) exactly when both train
splits are empty; with `b.train` empty and `a.train` non-empty it
silently produces a dataset whose train equals `a.train`. -/
theorem combineDatasets_empty_behavior (a b : List Record) :
    (combineDatasets a b = none ↔ a = [] ∧ b = [])
    ∧ (b = [] → a ≠ [] → ∃ k, combineDatasets a b = some (a, k)) := by
  constructor
  · constructor
    · intro h
      rcases hu : updatedTrain a b with _ | ⟨r, t⟩
      · have h2 : a ++ (addLoop (numPids a) (numCams a) b).1 = [] := hu
        rw [addLoop_fst] at h2
        rcases List.append_eq_nil.mp h2 with ⟨h3, h4⟩
        exact ⟨h3, List.map_eq_nil_iff.mp h4⟩
      · simp [combineDatasets, hu] at h
    · rintro ⟨ha, hb⟩
      subst ha; subst hb
      rfl
  · intro hb ha
    subst hb
    have hu : updatedTrain a [] = a := by simp [updatedTrain, addLoop]
    cases a with
    | nil => exact absurd rfl ha
    | cons r t =>
        refine ⟨match r.media with | .img _ => DatasetKind.image | .clip _ => DatasetKind.video, ?_⟩
        simp [combineDatasets, hu]

/-- Witness for C8: both-empty addition fails; singleton plus empty
succeeds with the original train. -/
theorem combineDatasets_empty_behavior_witness :
    combineDatasets ([] : List Record) [] = none
    ∧ ∃ k, combineDatasets [Record.tup (Media.img "a") 0 0 []] []
        = some ([Record.tup (Media.img "a") 0 0 []], k) :=
  ⟨(combineDatasets_empty_behavior [] []).1.2 ⟨rfl, rfl⟩,
   (combineDatasets_empty_behavior [Record.tup (Media.img "a") 0 0 []] []).2 rfl (by decide)⟩

/-- C10: all identity/camera bookkeeping keys a tuple-shaped record
under dataset id 0, ignoring the dataset id the loaders store at tuple
position 3: `parse_data`, `get_data_counts` and `_get_obj_ids` produce
entries only at key 0, and the addition offset applied to such a
record is `a`'s count for key 0. -/
theorem tuple_records_keyed_zero (path : String) (label : Int) (did : Nat) :
    tupleStoredDatasetId (classificationRecord path label (did : Int)) = some (did : Int)
    ∧ (classificationRecord path label (did : Int)).datasetId = 0
    ∧ (∀ d, parsePidSets [classificationRecord path label (did : Int)] d
          = if d = 0 then {label} else ∅)
    ∧ (∀ d, parseCamSets [classificationRecord path label (did : Int)] d
          = if d = 0 then {0} else ∅)
    ∧ (∀ d o, getDataCounts [classificationRecord path label (did : Int)] d o
          = if d = 0 ∧ o = label then 1 else 0)
    ∧ (∀ d, getObjIds [classificationRecord path label (did : Int)] [] (fun _ => []) d
          = if d = 0 then [label] else [])
    ∧ (∀ np nc : Nat → Nat,
        (shiftRecord np nc (classificationRecord path label (did : Int))).objId
          = label + (np 0 : Int)) := by
  refine ⟨rfl, rfl, ?_, ?_, ?_, ?_, fun np nc => rfl⟩
  · intro d
    by_cases h : d = 0 <;>
      simp [parsePidSets, insertAt, classificationRecord, Record.datasetId, Record.objId, h]
  · intro d
    by_cases h : d = 0 <;>
      simp [parseCamSets, insertAt, classificationRecord, Record.datasetId, Record.camId, h]
  · intro d o
    by_cases h : d = 0 <;> by_cases h2 : o = label <;>
      simp [getDataCounts, classificationRecord, Record.datasetId, Record.objId, h, h2]
  · intro d
    by_cases h : d = 0 <;>
      simp [getObjIds, addToIds, classificationRecord, Record.datasetId, Record.objId, h]

lemma relabel_eq_some (data : List Record) (junk : List Int) (lab : Nat → Int → Nat)
    (train : List Record)
    (hdom : ∀ r ∈ data, r.objId ∉ junk → parsePidSets train r.datasetId ≠ ∅) :
    relabel data junk lab (numPidsD train)
      = some ((data.filter (survives junk)).map
          (fun r => relabelRec ((lab r.datasetId r.objId : Int)
            + (numPids train r.datasetId : Int)) r)) := by
  induction data with
  | nil => rfl
  | cons r rs ih =>
      have ih2 := ih (fun x hx => hdom x (by simp [hx]))
      by_cases hj : r.objId ∈ junk
      · simp [relabel, hj, List.filter_cons, survives, ih2]
      · have hne := hdom r (by simp) hj
        have hsome : numPidsD train r.datasetId = some (numPids train r.datasetId) := by
          simp [numPidsD, hne, numPids]
        simp [relabel, hj, hsome, List.filter_cons, survives, ih2]

lemma relabel_some_inv (data : List Record) (junk : List Int) (lab : Nat → Int → Nat)
    (train : List Record) (l : List Record)
    (h : relabel data junk lab (numPidsD train) = some l) :
    l = (data.filter (survives junk)).map
          (fun r => relabelRec ((lab r.datasetId r.objId : Int)
            + (numPids train r.datasetId : Int)) r) := by
  induction data generalizing l with
  | nil =>
      simp only [relabel, Option.some.injEq] at h
      subst h
      rfl
  | cons r rs ih =>
      by_cases hj : r.objId ∈ junk
      · simp only [relabel, if_pos hj] at h
        simpa [List.filter_cons, survives, hj] using ih l h
      · cases hnp : numPidsD train r.datasetId with
        | none => simp [relabel, hj, hnp] at h
        | some n =>
            cases hrec : relabel rs junk lab (numPidsD train) with
            | none => simp [relabel, hj, hnp, hrec] at h
            | some rest =>
                have hn : n = numPids train r.datasetId := by
                  by_cases he : parsePidSets train r.datasetId = ∅
                  · simp [numPidsD, he] at hnp
                  · simp only [numPidsD, if_neg he, Option.some.injEq] at hnp
                    rw [← hnp]; rfl
                simp only [relabel, if_neg hj, hnp, hrec, Option.some.injEq] at h
                subst h
                rw [List.filter_cons]
                simp [survives, hj, ih rest hrec, hn]

lemma mem_addToIds_self (f : Nat → List Int) (k : Nat) (v : Int) :
    v ∈ addToIds f k v k := by
  by_cases hv : v ∈ f k <;> simp [addToIds, hv]

lemma mem_addToIds_mono (f : Nat → List Int) (k d : Nat) (v w : Int)
    (h : w ∈ f d) : w ∈ addToIds f k v d := by
  by_cases hd : d = k
  · subst hd
    by_cases hv : v ∈ f d <;> simp [addToIds, hv, h]
  · simp [addToIds, hd, h]

lemma getObjIds_mono (data : List Record) (junk : List Int) (init : Nat → List Int)
    (d : Nat) (v : Int) (h : v ∈ init d) : v ∈ getObjIds data junk init d := by
  induction data generalizing init with
  | nil => exact h
  | cons r rs ih =>
      by_cases hj : r.objId ∈ junk
      · simpa [getObjIds, hj] using ih init h
      · simpa [getObjIds, hj] using ih _ (mem_addToIds_mono init r.datasetId d r.objId v h)

lemma getObjIds_mem (data : List Record) (junk : List Int) (init : Nat → List Int)
    (r : Record) (hr : r ∈ data) (hj : r.objId ∉ junk) :
    r.objId ∈ getObjIds data junk init r.datasetId := by
  induction data generalizing init with
  | nil => cases hr
  | cons x xs ih =>
      rcases List.mem_cons.mp hr with he | hm
      · subst he
        simp only [getObjIds, if_neg hj]
        exact getObjIds_mono xs junk _ r.datasetId r.objId
          (mem_addToIds_self init r.datasetId r.objId)
      · by_cases hx : x.objId ∈ junk
        · simpa [getObjIds, hx] using ih init hm
        · simpa [getObjIds, hx] using ih (addToIds init x.datasetId x.objId) hm

lemma nodup_addToIds (f : Nat → List Int) (k : Nat) (v : Int) (d : Nat)
    (h : (f d).Nodup) : (addToIds f k v d).Nodup := by
  by_cases hd : d = k
  · subst hd
    by_cases hv : v ∈ f d <;> simp [addToIds, hv, h, List.nodup_append]
  · simpa [addToIds, hd] using h

lemma getObjIds_nodup (data : List Record) (junk : List Int) (init : Nat → List Int)
    (h : ∀ e, (init e).Nodup) (d : Nat) : (getObjIds data junk init d).Nodup := by
  induction data generalizing init with
  | nil => exact h d
  | cons r rs ih =>
      by_cases hj : r.objId ∈ junk
      · simpa [getObjIds, hj] using ih init h
      · simpa [getObjIds, hj] using
          ih _ (fun e => nodup_addToIds init r.datasetId r.objId e (h e))

lemma idIndex_map_self (l : List Int) (h : l.Nodup) :
    l.map (idIndex l) = List.range l.length := by
  induction l with
  | nil => rfl
  | cons x xs ih =>
      rcases List.nodup_cons.mp h with ⟨hx, hxs⟩
      have hhead : idIndex (x :: xs) x = 0 := by simp [idIndex]
      have h2 : xs.map (idIndex (x :: xs)) = (xs.map (idIndex xs)).map Nat.succ := by
        rw [List.map_map]
        apply List.map_congr_left
        intro y hy
        have hne : x ≠ y := fun he => hx (he ▸ hy)
        simp [idIndex, hne, Function.comp, Nat.succ_eq_add_one]
      rw [List.map_cons, hhead, h2, ih hxs, List.length_cons, List.range_succ_eq_map]

lemma relabelRec_objId (n : Int) (r : Record) : (relabelRec n r).objId = n := by
  cases r <;> rfl

lemma relabelRec_datasetId (n : Int) (r : Record) :
    (relabelRec n r).datasetId = r.datasetId := by
  cases r <;> rfl

lemma relabelRec_camId (n : Int) (r : Record) : (relabelRec n r).camId = r.camId := by
  cases r <;> rfl

lemma mem_pidsOf (v : Int) (data : List Record) (d : Nat) :
    v ∈ pidsOf data d ↔ ∃ r ∈ data, r.datasetId = d ∧ r.objId = v := by
  simp only [pidsOf, List.mem_toFinset, List.mem_map, List.mem_filter,
    decide_eq_true_eq]
  constructor
  · rintro ⟨r, ⟨hr, hd⟩, ho⟩
    exact ⟨r, hr, hd, ho⟩
  · rintro ⟨r, hr, hd, ho⟩
    exact ⟨r, ⟨hr, hd⟩, ho⟩

lemma combineAll_eq (junk : List Int) (train query gallery : List Record)
    (hdom : ∀ r ∈ query ++ gallery, r.objId ∉ junk → parsePidSets train r.datasetId ≠ ∅) :
    combineAll junk train query gallery
      = some (train
          ++ (query.filter (survives junk)).map
              (fun r => relabelRec (combineNewId junk query gallery train r) r)
          ++ (gallery.filter (survives junk)).map
              (fun r => relabelRec (combineNewId junk query gallery train r) r)) := by
  have hq := relabel_eq_some query junk (id2labelOf junk query gallery) train
    (fun r hr => hdom r (by simp [hr]))
  have hg := relabel_eq_some gallery junk (id2labelOf junk query gallery) train
    (fun r hr => hdom r (by simp [hr]))
  rw [combineAll, hq, hg]
  rfl

lemma combineAll_some_inv (junk : List Int) (train query gallery out : List Record)
    (h : combineAll junk train query gallery = some out) :
    out = train
        ++ (query.filter (survives junk)).map
            (fun r => relabelRec (combineNewId junk query gallery train r) r)
        ++ (gallery.filter (survives junk)).map
            (fun r => relabelRec (combineNewId junk query gallery train r) r) := by
  cases hq : relabel query junk (id2labelOf junk query gallery) (numPidsD train) with
  | none => simp [combineAll, hq] at h
  | some q =>
      cases hg : relabel gallery junk (id2labelOf junk query gallery) (numPidsD train) with
      | none => simp [combineAll, hq, hg] at h
      | some g =>
          simp only [combineAll, hq, hg, Option.some.injEq] at h
          rw [← h, relabel_some_inv query junk _ train q hq,
              relabel_some_inv gallery junk _ train g hg]
          rfl

/-- C1 counterexample: with all three splits non-empty but a query
record whose `dataset_id` (1) carries no train identities,
`combine_all` raises `KeyError` on the `num_train_ids[dataset_id]`
lookup in `_relabel` (modelled `none`) instead of producing the merged
train split. -/
theorem combineAll_missing_did_fails :
    combineAll [] [Record.tup (Media.img "t") 0 0 []]
        [Record.dict ⟨Media.img "q", 0, 0, 1⟩]
        [Record.tup (Media.img "g") 2 0 []] = none
    ∧ ([Record.tup (Media.img "t") 0 0 []] : List Record) ≠ []
    ∧ ([Record.dict ⟨Media.img "q", 0, 0, 1⟩] : List Record) ≠ []
    ∧ ([Record.tup (Media.img "g") 2 0 []] : List Record) ≠ [] := by decide

/-- C1 amended: for non-empty splits in which every junk-surviving
query/gallery record's `dataset_id` carries at least one train
identity, `combine_all` replaces the train split with the original
train records followed by the junk-filtered query records and the
junk-filtered gallery records, each surviving identity mapped (per
`dataset_id`) to a dense zero-based label offset by the number of
existing train identities for that `dataset_id`: the enumeration
labels are exactly `0, ..., k-1` for the `k` surviving identities of
each `dataset_id`, and every surviving record's identity is
enumerated. -/
theorem combineAll_merges_relabeled (junk : List Int) (train query gallery : List Record)
    (_ht : train ≠ []) (_hq : query ≠ []) (_hg : gallery ≠ [])
    (hdom : ∀ r ∈ query ++ gallery, r.objId ∉ junk → parsePidSets train r.datasetId ≠ ∅) :
    combineAll junk train query gallery
      = some (train
          ++ (query.filter (survives junk)).map
              (fun r => relabelRec (combineNewId junk query gallery train r) r)
          ++ (gallery.filter (survives junk)).map
              (fun r => relabelRec (combineNewId junk query gallery train r) r))
    ∧ (∀ did, (newObjIdsOf junk query gallery did).map
          (idIndex (newObjIdsOf junk query gallery did))
        = List.range (newObjIdsOf junk query gallery did).length)
    ∧ (∀ r ∈ query ++ gallery, r.objId ∉ junk →
        r.objId ∈ newObjIdsOf junk query gallery r.datasetId) := by
  refine ⟨combineAll_eq junk train query gallery hdom, ?_, ?_⟩
  · intro did
    exact idIndex_map_self _
      (getObjIds_nodup gallery junk _
        (fun e => getObjIds_nodup query junk (fun _ => []) (fun _ => List.nodup_nil) e) did)
  · intro r hr hj
    rcases List.mem_append.mp hr with hq2 | hg2
    · exact getObjIds_mono gallery junk _ r.datasetId r.objId
        (getObjIds_mem query junk (fun _ => []) r hq2 hj)
    · exact getObjIds_mem gallery junk _ r hg2 hj

/-- Witness for C1 at the spec's example `train=[(_,0,0)]`,
`query=[(_,1,0)]`, `gallery=[(_,2,0)]`: the combined train has length
3 and the appended identities are 1 and 2. -/
theorem combineAll_merges_relabeled_witness :
    combineAll [] [Record.tup (Media.img "t") 0 0 []] [Record.tup (Media.img "q") 1 0 []]
        [Record.tup (Media.img "g") 2 0 []]
      = some [Record.tup (Media.img "t") 0 0 [], Record.tup (Media.img "q") 1 0 [],
              Record.tup (Media.img "g") 2 0 []]
    ∧ ((combineAll [] [Record.tup (Media.img "t") 0 0 []]
          [Record.tup (Media.img "q") 1 0 []]
          [Record.tup (Media.img "g") 2 0 []]).getD []).length = 3
    ∧ ((combineAll [] [Record.tup (Media.img "t") 0 0 []]
          [Record.tup (Media.img "q") 1 0 []]
          [Record.tup (Media.img "g") 2 0 []]).getD []).map Record.objId = [0, 1, 2] :=
  ⟨((combineAll_merges_relabeled [] [Record.tup (Media.img "t") 0 0 []]
      [Record.tup (Media.img "q") 1 0 []] [Record.tup (Media.img "g") 2 0 []]
      (by decide) (by decide) (by decide) (by decide)).1).trans (by decide),
   by decide, by decide⟩

/-- C3 counterexample: when the original train identities are not a
dense zero-based range, the offset does not prevent collisions — with
`train=[(_,2,0)]` and `query=[(_,0,0),(_,1,0)]`, the appended records
get identities 1 and 2, and 2 collides with the original train
identity 2 of the same dataset id. -/
theorem combineAll_collision_example :
    ∃ rec ∈ (((combineAll [] [Record.tup (Media.img "t") 2 0 []]
        [Record.tup (Media.img "q") 0 0 [], Record.tup (Media.img "q2") 1 0 []]
        []).getD []).drop 1),
      rec.objId ∈ pidsOf [Record.tup (Media.img "t") 2 0 []] rec.datasetId := by decide

/-- C3 amended: if every original train identity id is non-negative
and below the train identity count of its `dataset_id` (i.e. the train
labels are dense zero-based), then no record appended by `combine_all`
carries an identity id present in the original train split for the
same `dataset_id`. -/
theorem combineAll_no_collision_of_dense_train (junk : List Int)
    (train query gallery out : List Record)
    (hdense : ∀ r ∈ train, 0 ≤ r.objId ∧ r.objId < (numPids train r.datasetId : Int))
    (hout : combineAll junk train query gallery = some out) :
    ∀ rec ∈ out.drop train.length, rec.objId ∉ pidsOf train rec.datasetId := by
  intro rec hrec hmem
  rw [combineAll_some_inv junk train query gallery out hout, List.append_assoc,
      List.drop_left] at hrec
  have hsrc : ∃ src, rec = relabelRec (combineNewId junk query gallery train src) src := by
    rcases List.mem_append.mp hrec with h | h <;>
      · rcases List.mem_map.mp h with ⟨src, _, he⟩
        exact ⟨src, he.symm⟩
  rcases hsrc with ⟨src, he⟩
  rcases (mem_pidsOf rec.objId train rec.datasetId).mp hmem with ⟨rt, hrt, hrtd, hrto⟩
  rcases hdense rt hrt with ⟨_, hlt⟩
  rw [he, relabelRec_datasetId] at hrtd
  rw [he, relabelRec_objId, combineNewId] at hrto
  rw [hrtd] at hlt
  omega

/-- Witness for C3: a dense single-identity train plus one query
record; the appended identity 1 avoids the train identity 0. -/
theorem combineAll_no_collision_witness :
    (∀ r ∈ [Record.tup (Media.img "t") 0 0 []],
        0 ≤ r.objId ∧ r.objId < (numPids [Record.tup (Media.img "t") 0 0 []] r.datasetId : Int))
    ∧ combineAll [] [Record.tup (Media.img "t") 0 0 []] [Record.tup (Media.img "q") 5 0 []] []
        = some [Record.tup (Media.img "t") 0 0 [], Record.tup (Media.img "q") 1 0 []]
    ∧ ∀ rec ∈ ([Record.tup (Media.img "t") 0 0 [],
          Record.tup (Media.img "q") 1 0 []] : List Record).drop 1,
        rec.objId ∉ pidsOf [Record.tup (Media.img "t") 0 0 []] rec.datasetId :=
  ⟨by decide, by decide,
   fun rec hrec =>
     combineAll_no_collision_of_dense_train [] [Record.tup (Media.img "t") 0 0 []]
       [Record.tup (Media.img "q") 5 0 []] []
       [Record.tup (Media.img "t") 0 0 [], Record.tup (Media.img "q") 1 0 []]
       (by decide) (by decide) rec hrec⟩

/-- C6: whenever `combine_all` produces a merged train, its appended
part consists exactly of the junk-filtered query and gallery records —
every appended record stems from a source record whose identity is not
junk, and the appended count equals the junk-filtered counts, so junk
identities never reach the merged train. -/
theorem combineAll_drops_junk (junk : List Int) (train query gallery out : List Record)
    (hout : combineAll junk train query gallery = some out) :
    (out.drop train.length).length
        = (query.filter (survives junk)).length + (gallery.filter (survives junk)).length
    ∧ ∀ rec ∈ out.drop train.length, ∃ src ∈ query ++ gallery,
        src.objId ∉ junk ∧ rec = relabelRec (combineNewId junk query gallery train src) src := by
  have hco := combineAll_some_inv junk train query gallery out hout
  rw [hco, List.append_assoc, List.drop_left]
  constructor
  · simp
  · intro rec hrec
    rcases List.mem_append.mp hrec with h | h
    · rcases List.mem_map.mp h with ⟨src, hsrc, he⟩
      rcases List.mem_filter.mp hsrc with ⟨hsq, hsv⟩
      exact ⟨src, List.mem_append.mpr (Or.inl hsq),
        by simpa [survives] using hsv, he.symm⟩
    · rcases List.mem_map.mp h with ⟨src, hsrc, he⟩
      rcases List.mem_filter.mp hsrc with ⟨hsg, hsv⟩
      exact ⟨src, List.mem_append.mpr (Or.inr hsg),
        by simpa [survives] using hsv, he.symm⟩

/-- Witness for C6 at the spec's junk example: identity `-1` in
`_junk_pids` is excluded entirely from the merged train. -/
theorem combineAll_drops_junk_witness :
    combineAll [-1] [Record.tup (Media.img "t") 0 0 []]
        [Record.tup (Media.img "j") (-1) 0 [], Record.tup (Media.img "q") 1 0 []]
        [Record.tup (Media.img "g") 2 0 []]
      = some [Record.tup (Media.img "t") 0 0 [], Record.tup (Media.img "q") 1 0 [],
              Record.tup (Media.img "g") 2 0 []]
    ∧ (([Record.tup (Media.img "t") 0 0 [], Record.tup (Media.img "q") 1 0 [],
          Record.tup (Media.img "g") 2 0 []] : List Record).drop 1).length
        = (([Record.tup (Media.img "j") (-1) 0 [],
              Record.tup (Media.img "q") 1 0 []] : List Record).filter (survives [-1])).length
          + (([Record.tup (Media.img "g") 2 0 []] : List Record).filter (survives [-1])).length
    ∧ ∀ rec ∈ ([Record.tup (Media.img "t") 0 0 [], Record.tup (Media.img "q") 1 0 [],
          Record.tup (Media.img "g") 2 0 []] : List Record).drop 1,
        rec.objId ≠ (-1 : Int) :=
  ⟨by decide,
   (combineAll_drops_junk [-1] [Record.tup (Media.img "t") 0 0 []]
      [Record.tup (Media.img "j") (-1) 0 [], Record.tup (Media.img "q") 1 0 []]
      [Record.tup (Media.img "g") 2 0 []] _ (by decide)).1,
   by decide⟩

lemma evenly_trunc (N L : Nat) :
    N - N % L = L * (N / L) :=
  Nat.sub_eq_of_eq_add (Nat.div_add_mod N L).symm

lemma evenly_step_pos (N L : Nat) (hL : 1 ≤ L) (hLN : L ≤ N) :
    0 < (N - N % L) / L := by
  rw [evenly_trunc N L, Nat.mul_div_cancel_left _ (by omega)]
  exact Nat.div_pos hLN (by omega)

lemma evenly_count (N L : Nat) (hL : 1 ≤ L) (hLN : L ≤ N) :
    (N - N % L + (N - N % L) / L - 1) / ((N - N % L) / L) = L := by
  have hspos := evenly_step_pos N L hL hLN
  have hNs : N - N % L = (N - N % L) / L * L := by
    rw [evenly_trunc N L, Nat.mul_div_cancel_left _ (by omega), Nat.mul_comm]
  generalize hg : (N - N % L) / L = s at hspos hNs ⊢
  rw [hNs]
  have hrearr : s * L + s - 1 = s * L + (s - 1) := by omega
  rw [hrearr, Nat.mul_add_div hspos, Nat.div_eq_of_lt (by omega)]
  omega

/-- C7: the `evenly` policy returns, for a tracklet of length `N ≥ 1`
and target length `L ≥ 1`: if `N ≥ L`, the `L` indices
`0, N'/L, 2·N'/L, ...` where `N' = N - N % L`; if `N < L`, the indices
`0..N-1` followed by `N-1` repeated `L - N` times; in both cases the
output length is exactly `L`. -/
theorem evenly_sampling_spec (N L : Nat) (_hN : 1 ≤ N) (hL : 1 ≤ L) :
    (L ≤ N → evenlyIndices N L
        = (List.range L).map (fun k => k * ((N - N % L) / L)))
    ∧ (N < L → evenlyIndices N L
        = List.range N ++ List.replicate (L - N) (N - 1))
    ∧ (evenlyIndices N L).length = L := by
  have hbr : ∀ hLN : L ≤ N, evenlyIndices N L
      = (List.range L).map (fun k => k * ((N - N % L) / L)) := by
    intro hLN
    have hspos := evenly_step_pos N L hL hLN
    rw [evenlyIndices, if_pos hLN, arangeNat, if_neg (by omega), evenly_count N L hL hLN]
  refine ⟨hbr, ?_, ?_⟩
  · intro hNL
    rw [evenlyIndices, if_neg (by omega)]
  · by_cases hLN : L ≤ N
    · rw [hbr hLN]
      simp
    · rw [evenlyIndices, if_neg hLN]
      simp only [List.length_append, List.length_range, List.length_replicate]
      omega

/-- Witness for C7 at the spec's examples: `N=10, L=3` yields
`[0, 3, 6]` and `N=2, L=5` yields `[0, 1, 1, 1, 1]`, each of the
target length. -/
theorem evenly_sampling_spec_witness :
    evenlyIndices 10 3 = (List.range 3).map (fun k => k * ((10 - 10 % 3) / 3))
    ∧ evenlyIndices 10 3 = [0, 3, 6]
    ∧ evenlyIndices 2 5 = [0, 1, 1, 1, 1]
    ∧ (evenlyIndices 2 5).length = 5 :=
  ⟨(evenly_sampling_spec 10 3 (by decide) (by decide)).1 (by decide),
   by decide, by decide,
   (evenly_sampling_spec 2 5 (by decide) (by decide)).2.2⟩

/-- C9: resolving sample indices with a policy other than `random`,
`evenly` or `all` raises `ValueError` (the spec's
`InvalidConfiguration`) and produces no index list, while every
recognized policy succeeds; likewise the mode dispatch of the dataset
constructor fails for modes other than `train`, `query`, `gallery`
and succeeds for the recognized ones. -/
theorem dispatch_errors (method mode : String) (numImgs seqLen : Nat) (draw : List Nat)
    (train query gallery : List Record) :
    (method ≠ "random" → method ≠ "evenly" → method ≠ "all" →
        resolveIndices method numImgs seqLen draw
          = Except.error ("Unknown sample method: " ++ method))
    ∧ (method = "random" ∨ method = "evenly" ∨ method = "all" →
        ∃ l, resolveIndices method numImgs seqLen draw = Except.ok l)
    ∧ (mode ≠ "train" → mode ≠ "query" → mode ≠ "gallery" →
        selectModeData mode train query gallery
          = Except.error ("Invalid mode. Got " ++ mode
              ++ ", expected one of train, query, gallery"))
    ∧ (mode = "train" ∨ mode = "query" ∨ mode = "gallery" →
        ∃ l, selectModeData mode train query gallery = Except.ok l) := by
  refine ⟨?_, ?_, ?_, ?_⟩
  · intro h1 h2 h3
    simp [resolveIndices, h1, h2, h3]
  · rintro (h | h | h) <;> subst h <;> exact ⟨_, rfl⟩
  · intro h1 h2 h3
    simp [selectModeData, h1, h2, h3]
  · rintro (h | h | h) <;> subst h <;> exact ⟨_, rfl⟩

/-- Witness for C9: the policy `unknown` yields the error and no index
list, while `evenly` and mode `query` succeed. -/
theorem dispatch_errors_witness :
    resolveIndices "unknown" 10 3 []
        = Except.error ("Unknown sample method: " ++ "unknown")
    ∧ (∃ l, resolveIndices "evenly" 10 3 [] = Except.ok l)
    ∧ selectModeData "test" [] [] []
        = Except.error ("Invalid mode. Got " ++ "test"
            ++ ", expected one of train, query, gallery")
    ∧ (∃ l, selectModeData "query" [] [] [] = Except.ok l) :=
  ⟨(dispatch_errors "unknown" "test" 10 3 [] [] [] []).1
      (by decide) (by decide) (by decide),
   (dispatch_errors "evenly" "test" 10 3 [] [] [] []).2.1 (Or.inr (Or.inl rfl)),
   (dispatch_errors "unknown" "test" 10 3 [] [] [] []).2.2.1
      (by decide) (by decide) (by decide),
   (dispatch_errors "unknown" "query" 10 3 [] [] [] []).2.2.2 (Or.inr (Or.inl rfl))⟩
